import Mathlib

/-!
Verification of the CSVision data layer (`src/csv_data_manager.py`).

The CSV table is shallowly embedded as an ordered list of named columns of
rational values (Python floats are modelled exactly as rationals; the cells of
the telemetry tables under consideration are numeric).  Every fallible Python
operation is embedded as an `Except PyErr` computation, and the exception that
each raising statement of the source produces is recorded as a `PyErr`
constructor.
-/

deriving instance DecidableEq for Except

namespace CSVision

/-- Python values that can be passed into the selector slots `idx` / `hdr`
of the accessor API: an `int` or a `str`.  `Option PyVal` models an optional
parameter whose default is `None`. -/
inductive PyVal where
  | int (n : ℤ)
  | str (s : String)
  deriving DecidableEq

/-- The exceptions that the query-time code of `CSVDataManager` can raise,
one constructor per distinct raising site. -/
inductive PyErr where
  /-- `IndexError` from `_validate_index` (index out of range). -/
  | indexOutOfRange
  /-- `ValueError` from `_validate_header` (header not found). -/
  | headerNotFound
  /-- `ValueError` "An index or header name must be provided." -/
  | missingSelector
  /-- `ValueError` "Only one of index or header name should be provided." -/
  | ambiguousSelector
  /-- `ValueError` "Did you mean to provide the hdr/idx?" (wrong slot type). -/
  | typeMismatch
  /-- `IndexError` from subscripting a too-short list (`[...][1]`, `data[0]`,
  `.iloc[0]` on an empty column). -/
  | indexError
  /-- `ValueError` from `min()` / `max()` on an empty sequence. -/
  | valueError
  /-- `ValueError` from unpacking a `split('::')` result that does not have
  exactly two elements. -/
  | unpackError
  deriving DecidableEq

/-- The loaded table: `cols` is the ordered list of `(header, values)` pairs
(the column order of the file), `pfx` is the constructor's `prefix` argument
(default `"Truma_n_"`) used only by `headers_mapping`. -/
structure Table where
  cols : List (String × List ℚ)
  pfx : String
  deriving DecidableEq

/-- `header_list` property: `self._dataframe.columns.tolist()`. -/
def header_list (t : Table) : List String := t.cols.map (·.1)

/-- `self._nr_of_data = len(self._dataframe.columns)`. -/
def nr_of_data (t : Table) : ℕ := (header_list t).length

/-- `index_list` property: `list(range(len(self.header_list)))`. -/
def index_list (t : Table) : List ℕ := List.range (header_list t).length

/-- `_validate_index`: raises `IndexError` iff the argument is an `int` and is
out of `[0, nr_of_data)`; any non-`int` argument (including `None`) passes. -/
def _validate_index (t : Table) : Option PyVal → Except PyErr Unit
  | some (.int n) =>
      if n < 0 ∨ (nr_of_data t : ℤ) ≤ n then .error .indexOutOfRange else .ok ()
  | _ => .ok ()

/-- `_validate_header`: raises `ValueError` iff the argument is a `str` and is
not among the headers; any non-`str` argument (including `None`) passes. -/
def _validate_header (t : Table) : Option PyVal → Except PyErr Unit
  | some (.str h) =>
      if h ∈ header_list t then .ok () else .error .headerNotFound
  | _ => .ok ()

/-- Python `isinstance(x, int)` on an optional selector value. -/
def isIntVal : Option PyVal → Bool
  | some (.int _) => true
  | _ => false

/-- Python `isinstance(x, str)` on an optional selector value. -/
def isStrVal : Option PyVal → Bool
  | some (.str _) => true
  | _ => false

/-- `_validate_input`: first runs `_validate_index(idx)` and
`_validate_header(hdr)` (so their exceptions fire before the combination
checks), then checks the four selector combinations in source order. -/
def _validate_input (t : Table) (idx hdr : Option PyVal) : Except PyErr Unit := do
  _validate_index t idx
  _validate_header t hdr
  if idx.isNone && hdr.isNone then
    .error .missingSelector
  else if idx.isSome && hdr.isSome then
    .error .ambiguousSelector
  else if hdr.isNone && !(isIntVal idx) then
    .error .typeMismatch
  else if idx.isNone && !(isStrVal hdr) then
    .error .typeMismatch
  else
    .ok ()

/-- `_get_data_by_header`: revalidates the header, then `self._dataframe.get(header)`
(the first column whose name matches).  The `none` branch is unreachable after
a successful validation. -/
def _get_data_by_header (t : Table) (h : String) : Except PyErr (List ℚ) := do
  _validate_header t (some (.str h))
  match t.cols.find? (fun c => c.1 == h) with
  | some c => .ok c.2
  | none => .error .headerNotFound

/-- `_get_data_by_index`: revalidates the index, then `self._dataframe.iloc[:, index]`. -/
def _get_data_by_index (t : Table) (n : ℤ) : Except PyErr (List ℚ) := do
  _validate_index t (some (.int n))
  .ok (t.cols.getD n.toNat ("", [])).2

/-- `_get_raw_data`: validates the selector pair, then dispatches on
`idx is not None`.  The two `.error .typeMismatch` arms are unreachable after
a successful `_validate_input`. -/
def _get_raw_data (t : Table) (idx hdr : Option PyVal) : Except PyErr (List ℚ) := do
  _validate_input t idx hdr
  match idx, hdr with
  | some (.int n), _ => _get_data_by_index t n
  | some (.str _), _ => .error .typeMismatch
  | none, some (.str h) => _get_data_by_header t h
  | none, _ => .error .typeMismatch

/-- `get_data`: `[float(value) for value in data]` — on the rational cells of
the model the `float` coercion is the identity, so this is `_get_raw_data`
followed by an identity map. -/
def get_data (t : Table) (idx hdr : Option PyVal) : Except PyErr (List ℚ) :=
  (_get_raw_data t idx hdr).map (fun l => l.map (fun v : ℚ => v))

/-- `get_header`: validates the index, then `str(self._dataframe.columns[index])`
(the guard makes the default of `getD` unreachable). -/
def get_header (t : Table) (n : ℤ) : Except PyErr String := do
  _validate_index t (some (.int n))
  .ok ((header_list t).getD n.toNat "")

/-- `get_index`: validates the header, then
`int(self._dataframe.columns.get_loc(header))` — the first position of the
header in column order. -/
def get_index (t : Table) (h : String) : Except PyErr ℤ := do
  _validate_header t (some (.str h))
  .ok ((header_list t).indexOf h : ℕ)

/-- One iteration of the `const_data_index_list` loop body for a single
column: `(datafram_col == datafram_col.iloc[0]).all()`.  On an empty column,
`.iloc[0]` raises an `IndexError`. -/
def constCheck : List ℚ → Except PyErr Bool
  | [] => .error .indexError
  | v :: vs => .ok ((v :: vs).all (fun x => x == v))

/-- The `for idx, column in enumerate(...)` loop of `const_data_index_list`,
accumulating the indices whose columns pass `constCheck`. -/
def constIdxAux : ℕ → List (String × List ℚ) → Except PyErr (List ℕ)
  | _, [] => .ok []
  | i, c :: cs => do
      let b ← constCheck c.2
      let rest ← constIdxAux (i + 1) cs
      .ok (if b then i :: rest else rest)

/-- `const_data_index_list` property: the indices of the columns all of whose
values equal the column's first value. -/
def const_data_index_list (t : Table) : Except PyErr (List ℕ) :=
  constIdxAux 0 t.cols

/-- The `for idx, column in enumerate(...)` loop of
`const_zero_data_index_list`: `(self._dataframe[column] == 0).all()` never
raises (it is vacuously true on an empty column). -/
def constZeroIdxAux : ℕ → List (String × List ℚ) → List ℕ
  | _, [] => []
  | i, c :: cs =>
      if c.2.all (fun x => x == 0) then i :: constZeroIdxAux (i + 1) cs
      else constZeroIdxAux (i + 1) cs

/-- `const_zero_data_index_list` property: the indices of the columns all of
whose values equal zero. -/
def const_zero_data_index_list (t : Table) : List ℕ :=
  constZeroIdxAux 0 t.cols

/-- `varying_data_index_list` property:
`[set(self.const_data_index_list) ^ set(self.index_list)]` — a ONE-ELEMENT
list containing the symmetric difference of the constant-index set and the
full index set. -/
def varying_data_index_list (t : Table) : Except PyErr (List (Finset ℕ)) :=
  (const_data_index_list t).map
    (fun c => [symmDiff c.toFinset (index_list t).toFinset])

/-- Python's substring test `pat in s` on character lists. -/
def pySubstr (pat : List Char) : List Char → Bool
  | [] => pat.isPrefixOf []
  | c :: cs => pat.isPrefixOf (c :: cs) || pySubstr pat cs

/-- Python's `str.replace(pat, rep)` on character lists: every non-overlapping
occurrence is replaced, scanning left to right.  The fuel `s.length + 1`
always suffices; an empty pattern leaves the string unchanged, matching the
net effect of the source's containment guard. -/
def pyReplaceAux : ℕ → List Char → List Char → List Char → List Char
  | 0, _, _, s => s
  | fuel + 1, pat, rep, s =>
      if !pat.isEmpty && pat.isPrefixOf s then
        rep ++ pyReplaceAux fuel pat rep (s.drop pat.length)
      else
        match s with
        | [] => []
        | c :: cs => c :: pyReplaceAux fuel pat rep cs

/-- Python's `str.replace` driver. -/
def pyReplace (pat rep s : List Char) : List Char :=
  pyReplaceAux (s.length + 1) pat rep s

/-- Python's `str.split(sep)` (with a non-empty separator) on character
lists: cut at every occurrence of the separator, scanning left to right. -/
def pySplitAux : ℕ → List Char → List Char → List Char → List (List Char)
  | 0, _, cur, s => [cur.reverse ++ s]
  | fuel + 1, sep, cur, s =>
      if !sep.isEmpty && sep.isPrefixOf s then
        cur.reverse :: pySplitAux fuel sep [] (s.drop sep.length)
      else
        match s with
        | [] => [cur.reverse]
        | c :: cs => pySplitAux fuel sep (c :: cur) cs

/-- Python's `str.split(sep)` driver. -/
def pySplit (sep s : List Char) : List (List Char) :=
  pySplitAux (s.length + 1) sep [] s

/-- The `strpped_header` computation of `headers_mapping`:
`header.replace(self._prefix, '') if self._prefix in header else header`.
Python's `replace` removes EVERY occurrence of the substring. -/
def stripPfx (p h : String) : String :=
  if pySubstr p.data h.data then String.mk (pyReplace p.data [] h.data) else h

/-- The `split('::')`-and-unpack step of `headers_mapping`:
`strpped_header.split('::') if '::' in strpped_header else (None, strpped_header)`.
Python `split` splits on every occurrence (when the separator is absent the
split is the whole string, which coincides with the source's `else` branch),
and unpacking the result into the pair `(group_header, header_key)` raises a
`ValueError` unless it has exactly two elements. -/
def splitHdr (s : String) : Except PyErr (Option String × String) :=
  match pySplit "::".data s.data with
  | [l] => .ok (none, String.mk l)
  | [g, l] => .ok (some (String.mk g), String.mk l)
  | _ => .error .unpackError

/-- `hdr_mapping.setdefault(group_header, []).append([header_key, idx])` on an
insertion-ordered association list. -/
def setdefaultAppend (m : List (Option String × List (String × ℕ)))
    (k : Option String) (v : String × ℕ) :
    List (Option String × List (String × ℕ)) :=
  match m with
  | [] => [(k, [v])]
  | (k', vs) :: rest =>
      if k' = k then (k', vs ++ [v]) :: rest
      else (k', vs) :: setdefaultAppend rest k v

/-- The `for idx, header in enumerate(self.header_list)` loop of
`headers_mapping`, threading the accumulated mapping. -/
def hdrMapAux (p : String) : ℕ → List String →
    List (Option String × List (String × ℕ)) →
    Except PyErr (List (Option String × List (String × ℕ)))
  | _, [], acc => .ok acc
  | i, h :: hs, acc => do
      let gl ← splitHdr (stripPfx p h)
      hdrMapAux p (i + 1) hs (setdefaultAppend acc gl.1 (gl.2, i))

/-- `headers_mapping` property: the insertion-ordered mapping from group name
(or `None`) to the `[header_key, idx]` pairs of its columns. -/
def headers_mapping (t : Table) :
    Except PyErr (List (Option String × List (String × ℕ))) :=
  hdrMapAux t.pfx 0 (header_list t) []

/-- Join character-list pieces with a separator (inverse of `pySplit` on the
tail pieces). -/
def joinSep (sep : List Char) : List (List Char) → List Char
  | [] => []
  | [l] => l
  | l :: ls => l ++ sep ++ joinSep sep ls

/-- Modelled from the spec: the header-splitting rule of `headerGroups`,
"strip the configured prefix if present, split ONCE on `::`" — the part
after the FIRST separator is kept whole as the leaf name.  This is the
specification-side counterpart against which `splitHdr` is compared. -/
def splitOnceSpec (s : String) : Option String × String :=
  match pySplit "::".data s.data with
  | [] => (none, s)
  | [l] => (none, String.mk l)
  | g :: rest => (some (String.mk g), String.mk (joinSep "::".data rest))

/-- Modelled from the spec: the `headerGroups` mapping built with the
split-once rule `splitOnceSpec`, same prefix stripping and the same
insertion-ordered grouping. -/
def headerGroupsSpecAux (p : String) : ℕ → List String →
    List (Option String × List (String × ℕ)) →
    List (Option String × List (String × ℕ))
  | _, [], acc => acc
  | i, h :: hs, acc =>
      let gl := splitOnceSpec (stripPfx p h)
      headerGroupsSpecAux p (i + 1) hs (setdefaultAppend acc gl.1 (gl.2, i))

/-- Modelled from the spec: `headerGroups() → GroupMapping`. -/
def headerGroupsSpec (t : Table) : List (Option String × List (String × ℕ)) :=
  headerGroupsSpecAux t.pfx 0 (header_list t) []

/-- Round-half-to-even to an integer, the rounding used by Python's `round`
and by `format(x, '.3f')` on the decimal value. -/
def rheInt (q : ℚ) : ℤ :=
  if q - ⌊q⌋ > 1 / 2 then ⌊q⌋ + 1
  else if q - ⌊q⌋ < 1 / 2 then ⌊q⌋
  else if ⌊q⌋ % 2 = 0 then ⌊q⌋ else ⌊q⌋ + 1

/-- Python `round(x, 3)`: round half to even at the third decimal. -/
def pyRound3 (q : ℚ) : ℚ := (rheInt (q * 1000) : ℚ) / 1000

/-- The integer that `int(format(raw_time, '.3f').replace('.', ''))` produces:
the value scaled by `10^3` and rounded; the decimal point stripped from the
3-decimal string concatenates the integer and fractional digit blocks, which
is exactly multiplication by `1000`. -/
def msOf (q : ℚ) : ℤ := rheInt (q * 1000)

/-- The decimal digit characters. -/
def digitChar : ℕ → Char
  | 0 => '0'
  | 1 => '1'
  | 2 => '2'
  | 3 => '3'
  | 4 => '4'
  | 5 => '5'
  | 6 => '6'
  | 7 => '7'
  | 8 => '8'
  | _ => '9'

/-- Base-10 digit characters of a natural number (fuelled recursion; the fuel
`n + 1` always suffices). -/
def natDecCharsAux : ℕ → ℕ → List Char
  | 0, _ => []
  | _ + 1, 0 => []
  | fuel + 1, n => natDecCharsAux fuel (n / 10) ++ [digitChar (n % 10)]

/-- Base-10 representation of a natural number as characters. -/
def natDecChars (n : ℕ) : List Char :=
  if n = 0 then ['0'] else natDecCharsAux (n + 1) n

/-- A three-digit zero-padded block, the fractional part of a `'.3f'` format. -/
def pad3Chars (m : ℕ) : List Char :=
  [digitChar (m / 100), digitChar (m / 10 % 10), digitChar (m % 10)]

/-- `format(raw_time, '.3f')` as its character sequence: optional sign,
integer digits, `'.'`, exactly three fractional digits. -/
def pyFormat3 (q : ℚ) : List Char :=
  (if msOf q < 0 then ['-'] else []) ++
    natDecChars ((msOf q).natAbs / 1000) ++ ['.'] ++ pad3Chars ((msOf q).natAbs % 1000)

/-- `datetime.datetime.utcfromtimestamp` accepts exactly the timestamps whose
UTC date has a year in `[1, 9999]` and raises `ValueError` otherwise; in
milliseconds the representable window is
`[-62135596800000, 253402300800000)`. -/
abbrev epochOK (ms : ℤ) : Prop :=
  -62135596800000 ≤ ms ∧ ms < 253402300800000

/-- The `H:M:S` clock components (as the floats produced by
`str(utcfromtimestamp(ms / 1e3)).split()[1].split(':')` followed by `float`):
hours and minutes are whole, seconds carry the millisecond fraction. -/
def epochHMS (ms : ℤ) : ℚ × ℚ × ℚ :=
  let d := ms.emod 86400000
  ((d / 3600000 : ℤ), ((d % 3600000) / 60000 : ℤ), ((d % 60000 : ℤ) : ℚ) / 1000)

/-- Python `str.split()` (whitespace split, empty pieces dropped) on a string
containing no whitespace other than spaces. -/
def pySplitWs (cs : List Char) : List (List Char) :=
  (cs.splitOnP (fun c => c == ' ')).filter (fun l => !l.isEmpty)

/-- The value of a non-empty all-digit character block, `none` otherwise. -/
def decDigits? (cs : List Char) : Option ℕ :=
  if cs.isEmpty then none
  else
    cs.foldl
      (fun acc c =>
        acc.bind (fun n => if c.isDigit then some (n * 10 + (c.toNat - 48)) else none))
      (some 0)

/-- Parse a plain decimal token (optional sign, digits, at most one `'.'`) to
a rational, as Python `float` does on such a token; `none` models the
`ValueError` of `float` on anything else. -/
def ratOfDec? (s : String) : Option ℚ :=
  let core (u : List Char) : Option ℚ :=
    match pySplit ['.'] u with
    | [a] => (decDigits? a).map (fun n => (n : ℚ))
    | [a, b] =>
        match decDigits? a, decDigits? b with
        | some n, some f => some ((n : ℚ) + (f : ℚ) / (10 : ℚ) ^ b.length)
        | _, _ => none
    | _ => none
  match s.data with
  | '-' :: rest => (core rest).map (fun q => -q)
  | cs => core cs

/-- The fallback branch of `_parse_time`:
`str(raw_time).split()[1].split(':')` on the already-formatted value, then
`tuple(map(float, ...))`.  Subscripting `[1]` raises an `IndexError` when the
whitespace split yields fewer than two tokens; a wrong number of `':'` pieces
makes the result unusable as an `(h, m, s)` triple (unpack error at the
caller), and an unparseable piece raises `float`'s `ValueError`. -/
def parseTimeFallback (raw : ℚ) : Except PyErr (ℚ × ℚ × ℚ) :=
  match (pySplitWs (pyFormat3 raw)).get? 1 with
  | none => .error .indexError
  | some tok =>
      match pySplit [':'] tok with
      | [a, b, c] =>
          match ratOfDec? (String.mk a), ratOfDec? (String.mk b),
              ratOfDec? (String.mk c) with
          | some x, some y, some z => .ok (x, y, z)
          | _, _, _ => .error .valueError
      | _ => .error .unpackError

/-- `_parse_time`: format the raw value to three decimals, strip the decimal
point, interpret the digits as epoch milliseconds and take the UTC `H:M:S`
triple; when `utcfromtimestamp` raises `ValueError` (timestamp outside the
representable year range) fall back to splitting the formatted string. -/
def _parse_time (raw : ℚ) : Except PyErr (ℚ × ℚ × ℚ) :=
  if epochOK (msOf raw) then .ok (epochHMS (msOf raw))
  else parseTimeFallback raw

/-- The elapsed-seconds formula of `_calculate_time_in_seconds`:
`round((hr - off0) * 3600 + (min - off1) * 60 + sec - off2, 3)`. -/
def hmsDelta (hms off : ℚ × ℚ × ℚ) : ℚ :=
  pyRound3 ((hms.1 - off.1) * 3600 + (hms.2.1 - off.2.1) * 60 + hms.2.2 - off.2.2)

/-- `_calculate_time_in_seconds`: parse the raw value and apply `hmsDelta`
against the offset triple. -/
def _calculate_time_in_seconds (raw : ℚ) (off : ℚ × ℚ × ℚ) : Except PyErr ℚ :=
  (_parse_time raw).map (fun hms => hmsDelta hms off)

/-- `time_data_list` property: start from `[0.0]`, fetch the `'time index'`
column via `get_data`, parse its first row (`data[0]` raises an `IndexError`
on an empty column) as the offset and append the elapsed seconds of every
subsequent row. -/
def time_data_list (t : Table) : Except PyErr (List ℚ) := do
  let data ← get_data t none (some (.str "time index"))
  match data with
  | [] => .error .indexError
  | d0 :: rest => do
      let off ← _parse_time d0
      let tail ← rest.mapM (fun r => _calculate_time_in_seconds r off)
      .ok ((0 : ℚ) :: tail)

/-- Python `min` over a list (left fold; `none` models the `ValueError` on an
empty sequence). -/
def listMin : List ℚ → Option ℚ
  | [] => none
  | x :: xs => some (xs.foldl min x)

/-- Python `max` over a list. -/
def listMax : List ℚ → Option ℚ
  | [] => none
  | x :: xs => some (xs.foldl max x)

/-- The extrema computation of `get_data_extrema` after the data has been
resolved: a fixed `±1.0` window for a constant series, otherwise a
`buffer = abs(0.05 * (max - min))` widening with each bound rounded to three
decimals. -/
def extremaCore (d : List ℚ) : Except PyErr (ℚ × ℚ) :=
  match listMin d, listMax d with
  | some mn, some mx =>
      if mn = mx then .ok (mn - 1, mx + 1)
      else
        .ok (pyRound3 (mn - |(5 / 100) * (mx - mn)|),
             pyRound3 (mx + |(5 / 100) * (mx - mn)|))
  | _, _ => .error .valueError

/-- `get_data_extrema`: resolve the selector via `_get_raw_data`, then apply
the extrema computation. -/
def get_data_extrema (t : Table) (idx hdr : Option PyVal) : Except PyErr (ℚ × ℚ) :=
  (_get_raw_data t idx hdr).bind extremaCore

/-- The outcomes of the underlying `pd.read_csv` call, one constructor per
`except` clause of `_load_data`. -/
inductive ReadOutcome where
  /-- `read_csv` returned a data frame. -/
  | success
  /-- `FileNotFoundError`: the path does not exist. -/
  | fileNotFound
  /-- `pd.errors.EmptyDataError`: no columns to parse. -/
  | emptyData
  /-- `UnicodeDecodeError`: the bytes are not decodable text. -/
  | unicodeDecode
  /-- `ValueError` (other than the decode error): e.g. a non-path argument. -/
  | valueErr
  /-- `TypeError` from the call. -/
  | typeErr
  /-- Any other exception, carrying its rendered message. -/
  | other (msg : String)
  deriving DecidableEq

/-- The Python exception classes re-raised by `_load_data`. -/
inductive ExcKind where
  | fileNotFoundError
  | emptyDataError
  | valueError
  | typeError
  | exception
  deriving DecidableEq

/-- Python `str` of a selector-typed value (`f"{self._filepath}"`). -/
def pyStr : PyVal → String
  | .str s => s
  | .int n => toString n

/-- Python `str(type(x))` of a selector-typed value. -/
def pyTypeStr : PyVal → String
  | .str _ => "<class \x27str\x27>"
  | .int _ => "<class \x27int\x27>"

/-- `pathlib.Path(p).suffix`: the final component's extension, i.e. the part
of the last `/`-component from its last `'.'` on, provided that dot is
neither the first nor the last character of the component. -/
def pathSuffix (s : String) : String :=
  let cs := (pySplit ['/'] s.data).getLastD []
  match cs.reverse.findIdx? (fun c => c == '.') with
  | none => ""
  | some j =>
      if 0 < j ∧ j < cs.length - 1 then String.mk ((cs.reverse.take (j + 1)).reverse)
      else ""

/-- `_load_data`: returns `True` on success and otherwise re-raises each
reader failure as the exception class and message of the corresponding
`except` clause (the messages are copied verbatim from the source, including
the unterminated quote of the `TypeError` message). -/
def _load_data (filepath : PyVal) : ReadOutcome → Except (ExcKind × String) Bool
  | .success => .ok true
  | .fileNotFound =>
      .error (.fileNotFoundError, "The file " ++ pyStr filepath ++ " was not found.")
  | .emptyData =>
      .error (.emptyDataError, "No columns to parse from file: " ++ pyStr filepath)
  | .unicodeDecode =>
      .error (.valueError, "Invalid file type: " ++ pathSuffix (pyStr filepath))
  | .valueErr =>
      .error (.valueError,
        "Invalid file path or buffer object type: " ++ pyTypeStr filepath)
  | .typeErr =>
      .error (.typeError, "Missing 1 required positional argument: \x27filepath")
  | .other msg =>
      .error (.exception, "An unexpected error occurred: " ++ msg)

/-- A two-column sample table used to instantiate the accessor theorems. -/
def sampleTable : Table := ⟨[("a", [1]), ("b", [2])], "x"⟩

/-- A sample table with one constant and one varying column. -/
def mixedTable : Table := ⟨[("a", [1, 1]), ("b", [1, 2])], "x"⟩

section Lemmas

@[simp] lemma ok_bind {ε α β : Type _} (a : α) (f : α → Except ε β) :
    ((Except.ok a : Except ε α) >>= f) = f a := rfl

@[simp] lemma error_bind {ε α β : Type _} (e : ε) (f : α → Except ε β) :
    ((Except.error e : Except ε α) >>= f) = .error e := rfl

@[simp] lemma ok_bind' {ε α β : Type _} (a : α) (f : α → Except ε β) :
    (Except.ok a : Except ε α).bind f = f a := rfl

@[simp] lemma error_bind' {ε α β : Type _} (e : ε) (f : α → Except ε β) :
    (Except.error e : Except ε α).bind f = .error e := rfl

lemma foldl_min_all_eq {v : ℚ} {xs : List ℚ} (h : ∀ x ∈ xs, x = v) :
    xs.foldl min v = v := by
  induction xs with
  | nil => rfl
  | cons y ys ih =>
      have hy : y = v := h y (by simp)
      have hys : ∀ x ∈ ys, x = v := fun x hx => h x (by simp [hx])
      simp [List.foldl_cons, hy, ih hys]

lemma foldl_max_all_eq {v : ℚ} {xs : List ℚ} (h : ∀ x ∈ xs, x = v) :
    xs.foldl max v = v := by
  induction xs with
  | nil => rfl
  | cons y ys ih =>
      have hy : y = v := h y (by simp)
      have hys : ∀ x ∈ ys, x = v := fun x hx => h x (by simp [hx])
      simp [List.foldl_cons, hy, ih hys]

lemma constIdxAux_lt : ∀ (cs : List (String × List ℚ)) (i : ℕ) (l : List ℕ),
    constIdxAux i cs = .ok l → ∀ j ∈ l, j < i + cs.length := by
  intro cs
  induction cs with
  | nil =>
      intro i l h j hj
      unfold constIdxAux at h
      injection h with h
      subst h
      simp at hj
  | cons c cs ih =>
      intro i l h j hj
      unfold constIdxAux at h
      cases hb : constCheck c.2 with
      | error e => rw [hb] at h; simp at h
      | ok b =>
          rw [hb] at h
          cases hr : constIdxAux (i + 1) cs with
          | error e => rw [hr] at h; simp at h
          | ok rest =>
              rw [hr] at h
              simp only [ok_bind] at h
              injection h with h
              subst h
              have hrec := ih (i + 1) rest hr
              simp only [List.length_cons]
              cases b with
              | false =>
                  simp only [Bool.false_eq_true, if_false] at hj
                  have := hrec j hj
                  omega
              | true =>
                  simp only [if_true] at hj
                  rcases List.mem_cons.1 hj with rfl | hj'
                  · omega
                  · have := hrec j hj'
                    omega

lemma constIdxAux_ok : ∀ (cs : List (String × List ℚ)) (i : ℕ),
    (∀ c ∈ cs, c.2 ≠ []) → ∃ l, constIdxAux i cs = .ok l := by
  intro cs
  induction cs with
  | nil => exact fun i _ => ⟨[], rfl⟩
  | cons c cs ih =>
      intro i h
      obtain ⟨l, hl⟩ := ih (i + 1) (fun d hd => h d (List.mem_cons_of_mem _ hd))
      have hc : c.2 ≠ [] := h c (List.mem_cons_self _ _)
      obtain ⟨v, vs, hv⟩ : ∃ v vs, c.2 = v :: vs := by
        cases hcc : c.2 with
        | nil => exact absurd hcc hc
        | cons v vs => exact ⟨v, vs, rfl⟩
      refine ⟨if (v :: vs).all (fun x => x == v) then i :: l else l, ?_⟩
      unfold constIdxAux
      rw [hv]
      rw [show constCheck (v :: vs) = .ok ((v :: vs).all (fun x => x == v)) from rfl]
      simp only [ok_bind]
      rw [hl]
      simp only [ok_bind]

lemma constZero_mem_aux : ∀ (cs : List (String × List ℚ)) (i : ℕ) (l : List ℕ),
    constIdxAux i cs = .ok l → ∀ j ∈ constZeroIdxAux i cs, j ∈ l := by
  intro cs
  induction cs with
  | nil =>
      intro i l h j hj
      simp [constZeroIdxAux] at hj
  | cons c cs ih =>
      intro i l h j hj
      unfold constIdxAux at h
      cases hcc : c.2 with
      | nil => rw [hcc] at h; simp [constCheck] at h
      | cons v vs =>
          rw [hcc] at h
          rw [show constCheck (v :: vs) = .ok ((v :: vs).all (fun x => x == v)) from rfl] at h
          simp only [ok_bind] at h
          cases hr : constIdxAux (i + 1) cs with
          | error e => rw [hr] at h; simp at h
          | ok rest =>
              rw [hr] at h
              simp only [ok_bind] at h
              injection h with h
              subst h
              unfold constZeroIdxAux at hj
              rw [hcc] at hj
              by_cases hz : (v :: vs).all (fun x => x == 0) = true
              · rw [if_pos hz] at hj
                have hv0 : v = 0 := by
                  have := List.all_eq_true.1 hz v (List.mem_cons_self _ _)
                  simpa using this
                subst hv0
                rw [if_pos hz]
                rcases List.mem_cons.1 hj with rfl | hj'
                · exact List.mem_cons_self _ _
                · exact List.mem_cons_of_mem _ (ih (i + 1) rest hr j hj')
              · rw [if_neg hz] at hj
                have hj' := ih (i + 1) rest hr j hj
                by_cases hav : (v :: vs).all (fun x => x == v) = true
                · rw [if_pos hav]
                  exact List.mem_cons_of_mem _ hj'
                · rw [if_neg hav]
                  exact hj'

lemma pySplitAux_ne_nil : ∀ (fuel : ℕ) (sep cur s : List Char),
    pySplitAux fuel sep cur s ≠ [] := by
  intro fuel
  induction fuel with
  | zero => intro sep cur s; simp [pySplitAux]
  | succ n ih =>
      intro sep cur s
      unfold pySplitAux
      by_cases hp : (!sep.isEmpty && sep.isPrefixOf s) = true
      · rw [if_pos hp]; simp
      · rw [if_neg hp]
        cases s with
        | nil => simp
        | cons c cs => exact ih sep (c :: cur) cs

lemma splitHdr_eq_spec (s : String) (h : (pySplit "::".data s.data).length ≤ 2) :
    splitHdr s = .ok (splitOnceSpec s) := by
  unfold splitHdr splitOnceSpec
  cases hsp : pySplit "::".data s.data with
  | nil => exact absurd hsp (pySplitAux_ne_nil _ _ _ _)
  | cons a rest =>
      cases rest with
      | nil => rfl
      | cons b rest2 =>
          cases rest2 with
          | nil => rfl
          | cons cc rest3 =>
              rw [hsp] at h
              simp at h

lemma hdrMapAux_eq_spec : ∀ (hs : List String) (p : String) (i : ℕ)
    (acc : List (Option String × List (String × ℕ))),
    (∀ hd ∈ hs, (pySplit "::".data (stripPfx p hd).data).length ≤ 2) →
    hdrMapAux p i hs acc = .ok (headerGroupsSpecAux p i hs acc) := by
  intro hs
  induction hs with
  | nil => intro p i acc _; rfl
  | cons hd hs ih =>
      intro p i acc h
      unfold hdrMapAux headerGroupsSpecAux
      rw [splitHdr_eq_spec _ (h hd (List.mem_cons_self _ _)), ok_bind]
      exact ih p (i + 1) _ (fun d hd' => h d (List.mem_cons_of_mem _ hd'))

lemma digitChar_ne_space (d : ℕ) : digitChar d ≠ ' ' := by
  rcases d with _ | _ | _ | _ | _ | _ | _ | _ | _ | _ | d
  · decide
  · decide
  · decide
  · decide
  · decide
  · decide
  · decide
  · decide
  · decide
  · decide
  · exact show ('9' : Char) ≠ ' ' by decide

lemma natDecCharsAux_no_space : ∀ (fuel n : ℕ), ' ' ∉ natDecCharsAux fuel n := by
  intro fuel
  induction fuel with
  | zero => intro n; simp [natDecCharsAux]
  | succ f ih =>
      intro n
      cases n with
      | zero => simp [natDecCharsAux]
      | succ m =>
          unfold natDecCharsAux
          intro hmem
          rcases List.mem_append.1 hmem with h1 | h2
          · exact ih _ h1
          · simp only [List.mem_singleton] at h2
            exact digitChar_ne_space _ h2.symm

lemma pyFormat3_no_space (q : ℚ) : ' ' ∉ pyFormat3 q := by
  unfold pyFormat3
  intro hmem
  rcases List.mem_append.1 hmem with h1 | h2
  · rcases List.mem_append.1 h1 with h3 | h4
    · rcases List.mem_append.1 h3 with h5 | h6
      · by_cases hneg : msOf q < 0
        · rw [if_pos hneg] at h5
          simp at h5
        · rw [if_neg hneg] at h5
          simp at h5
      · unfold natDecChars at h6
        by_cases hz : (msOf q).natAbs / 1000 = 0
        · rw [if_pos hz] at h6
          simp at h6
        · rw [if_neg hz] at h6
          exact natDecCharsAux_no_space _ _ h6
    · simp at h4
  · unfold pad3Chars at h2
    simp only [List.mem_cons, List.mem_singleton, List.not_mem_nil, or_false] at h2
    rcases h2 with h2 | h2 | h2 <;> exact digitChar_ne_space _ h2.symm

lemma pyFormat3_split_len (q : ℚ) : (pySplitWs (pyFormat3 q)).length ≤ 1 := by
  unfold pySplitWs
  have h : (pyFormat3 q).splitOnP (fun c => c == ' ') = [pyFormat3 q] :=
    List.splitOnP_eq_single _ _ (fun x hx hxe => by
      have hxs : x = ' ' := by simpa using hxe
      exact pyFormat3_no_space q (hxs ▸ hx))
  rw [h]
  exact List.length_filter_le _ _

lemma rheInt_le (q : ℚ) : (rheInt q : ℚ) ≤ q + 1 / 2 := by
  unfold rheInt
  have h1 : (⌊q⌋ : ℚ) ≤ q := Int.floor_le q
  have h2 : q < ⌊q⌋ + 1 := Int.lt_floor_add_one q
  rcases lt_trichotomy (q - ⌊q⌋) (1 / 2) with h | h | h
  · rw [if_neg (by linarith), if_pos h]
    linarith
  · rw [if_neg (by linarith), if_neg (by linarith)]
    by_cases he : ⌊q⌋ % 2 = 0
    · rw [if_pos he]; linarith
    · rw [if_neg he]; push_cast; linarith
  · rw [if_pos h]
    push_cast
    linarith

lemma le_rheInt (q : ℚ) : q - 1 / 2 ≤ (rheInt q : ℚ) := by
  unfold rheInt
  have h1 : (⌊q⌋ : ℚ) ≤ q := Int.floor_le q
  have h2 : q < ⌊q⌋ + 1 := Int.lt_floor_add_one q
  rcases lt_trichotomy (q - ⌊q⌋) (1 / 2) with h | h | h
  · rw [if_neg (by linarith), if_pos h]
    linarith
  · rw [if_neg (by linarith), if_neg (by linarith)]
    by_cases he : ⌊q⌋ % 2 = 0
    · rw [if_pos he]; linarith
    · rw [if_neg he]; push_cast; linarith
  · rw [if_pos h]
    push_cast
    linarith

lemma pyRound3_le (x : ℚ) : pyRound3 x ≤ x + 1 / 2000 := by
  unfold pyRound3
  have h := rheInt_le (x * 1000)
  linarith

lemma le_pyRound3 (x : ℚ) : x - 1 / 2000 ≤ pyRound3 x := by
  unfold pyRound3
  have h := le_rheInt (x * 1000)
  linarith

lemma parse_time_ok (r : ℚ) (h : epochOK (msOf r)) :
    _parse_time r = .ok (epochHMS (msOf r)) := by
  unfold _parse_time
  exact if_pos h

lemma calc_time_ok (off : ℚ × ℚ × ℚ) (r : ℚ) (h : epochOK (msOf r)) :
    _calculate_time_in_seconds r off = .ok (hmsDelta (epochHMS (msOf r)) off) := by
  unfold _calculate_time_in_seconds
  rw [parse_time_ok r h]
  rfl

lemma mapM_calc_ok (off : ℚ × ℚ × ℚ) : ∀ (l : List ℚ),
    (∀ r ∈ l, epochOK (msOf r)) →
    l.mapM (fun r => _calculate_time_in_seconds r off) =
      .ok (l.map (fun r => hmsDelta (epochHMS (msOf r)) off)) := by
  intro l
  induction l with
  | nil => intro _; rfl
  | cons r rs ih =>
      intro h
      rw [List.mapM_cons, calc_time_ok off r (h r (List.mem_cons_self _ _)),
        ih (fun x hx => h x (List.mem_cons_of_mem _ hx))]
      rfl

end Lemmas

/-- C5: for every series resolved by `get_data_extrema` all of whose rows are
the identical value `v`, the result is exactly `(v - 1.0, v + 1.0)`. -/
theorem extrema_constant_window (t : Table) (idx hdr : Option PyVal) (v : ℚ)
    (d : List ℚ) (hres : _get_raw_data t idx hdr = .ok d)
    (hne : d ≠ []) (hconst : ∀ x ∈ d, x = v) :
    get_data_extrema t idx hdr = .ok (v - 1, v + 1) := by
  unfold get_data_extrema
  rw [hres]
  cases d with
  | nil => exact absurd rfl hne
  | cons x xs =>
      have hx : x = v := hconst x (by simp)
      have hxs : ∀ y ∈ xs, y = v := fun y hy => hconst y (by simp [hy])
      simp [Except.bind, extremaCore, listMin, listMax, hx,
        foldl_min_all_eq hxs, foldl_max_all_eq hxs]

/-- Witness for C5: a constant series of value `7` yields the window `(6, 8)`. -/
theorem extrema_constant_window_example :
    get_data_extrema ⟨[("a", [7, 7, 7])], "x"⟩ none (some (.str "a")) = .ok (6, 8) :=
  (extrema_constant_window ⟨[("a", [7, 7, 7])], "x"⟩ none (some (.str "a")) 7
    [7, 7, 7] (by simp [_get_raw_data, _validate_input, _validate_index,
      _validate_header, _get_data_by_header, header_list, isStrVal])
    (by simp) (by norm_num)).trans (by norm_num)

/-- C9: with unique header names, `get_index` after `get_header` is the
identity on every valid index. -/
theorem get_index_get_header (t : Table) (i : ℤ)
    (hnodup : (header_list t).Nodup) (h0 : 0 ≤ i) (hlt : i < (nr_of_data t : ℤ)) :
    (get_header t i).bind (get_index t) = .ok i := by
  have hn : i.toNat < (header_list t).length := by
    unfold nr_of_data at hlt; omega
  have hcond : ¬ (i < 0 ∨ (nr_of_data t : ℤ) ≤ i) := by omega
  have hget : (header_list t).getD i.toNat "" = (header_list t)[i.toNat] :=
    List.getD_eq_getElem _ _ hn
  have hmem : (header_list t)[i.toNat] ∈ header_list t := List.getElem_mem hn
  have hvi : _validate_index t (some (.int i)) = .ok () := by
    unfold _validate_index
    exact if_neg hcond
  have h1 : get_header t i = .ok ((header_list t)[i.toNat]) := by
    unfold get_header
    rw [hvi, ok_bind, hget]
  have hvh : _validate_header t (some (.str ((header_list t)[i.toNat]))) = .ok () := by
    unfold _validate_header
    exact if_pos hmem
  have h2 : get_index t ((header_list t)[i.toNat]) = .ok i := by
    unfold get_index
    rw [hvh, ok_bind]
    rw [List.indexOf_getElem hnodup i.toNat hn]
    congr 1
    omega
  rw [h1, ok_bind', h2]

/-- Witness for C9 at index `1` of the sample table. -/
theorem get_index_get_header_example :
    ((header_list sampleTable).Nodup ∧ (0 : ℤ) ≤ 1 ∧ (1 : ℤ) < (nr_of_data sampleTable : ℤ)) ∧
    (get_header sampleTable 1).bind (get_index sampleTable) = .ok 1 :=
  ⟨⟨by decide, by decide, by decide⟩,
    get_index_get_header sampleTable 1 (by decide) (by decide) (by decide)⟩

/-- C8 (amended): `_load_data` maps the six reader failures to five distinct
exception classes — `InvalidEncoding` and `InvalidPathType` both surface as
`ValueError` — and each message embeds the failing path, its suffix, the
argument's type, the missing parameter's name, or the underlying cause; a
non-existent path fails as `FileNotFoundError` naming the path. -/
theorem load_error_taxonomy (fp : PyVal) (cause : String) :
    _load_data fp .fileNotFound =
      .error (.fileNotFoundError, "The file " ++ pyStr fp ++ " was not found.") ∧
    _load_data fp .emptyData =
      .error (.emptyDataError, "No columns to parse from file: " ++ pyStr fp) ∧
    _load_data fp .unicodeDecode =
      .error (.valueError, "Invalid file type: " ++ pathSuffix (pyStr fp)) ∧
    _load_data fp .valueErr =
      .error (.valueError, "Invalid file path or buffer object type: " ++ pyTypeStr fp) ∧
    _load_data fp .typeErr =
      .error (.typeError, "Missing 1 required positional argument: \x27filepath") ∧
    _load_data fp (.other cause) =
      .error (.exception, "An unexpected error occurred: " ++ cause) ∧
    ([ExcKind.fileNotFoundError, .emptyDataError, .valueError, .typeError,
      .exception] : List ExcKind).Nodup :=
  ⟨rfl, rfl, rfl, rfl, rfl, rfl, by decide⟩

/-- Counterexample for C8: the `InvalidEncoding` and `InvalidPathType`
failures raise the SAME exception class (`ValueError`), so the six failure
kinds are not pairwise distinct as claimed. -/
theorem load_kind_collision :
    _load_data (.str "t.xlsx") .unicodeDecode =
      .error (.valueError, "Invalid file type: .xlsx") ∧
    _load_data (.int 4) .valueErr =
      .error (.valueError,
        "Invalid file path or buffer object type: <class \x27int\x27>") := by
  decide

/-- C2 (amended): when both selector slots are provided AND each passes its
individual validation, `_validate_input` fails with the ambiguous-selector
error; with neither provided it fails with the missing-selector error; a lone
string index or a lone integer header fails with the type-mismatch error
unconditionally.  (Without the individual-validation hypothesis the
both-provided case can fail with the index or header error instead, because
`_validate_index` and `_validate_header` run first.) -/
theorem validate_input_kinds (t : Table) (v w : PyVal) (s : String) (n : ℤ)
    (hvi : _validate_index t (some v) = .ok ())
    (hvh : _validate_header t (some w) = .ok ()) :
    _validate_input t (some v) (some w) = .error .ambiguousSelector ∧
    _validate_input t none none = .error .missingSelector ∧
    _validate_input t (some (.str s)) none = .error .typeMismatch ∧
    _validate_input t none (some (.int n)) = .error .typeMismatch := by
  refine ⟨?_, ?_, ?_, ?_⟩
  · unfold _validate_input
    rw [hvi, hvh]
    rfl
  · rfl
  · unfold _validate_input _validate_index _validate_header
    rfl
  · unfold _validate_input _validate_index _validate_header
    rfl

/-- Witness for C2 on the sample table with a valid index `1` and the valid
header `"a"`. -/
theorem validate_input_kinds_example :
    (_validate_index sampleTable (some (.int 1)) = .ok () ∧
      _validate_header sampleTable (some (.str "a")) = .ok ()) ∧
    (_validate_input sampleTable (some (.int 1)) (some (.str "a")) =
        .error .ambiguousSelector ∧
      _validate_input sampleTable none none = .error .missingSelector ∧
      _validate_input sampleTable (some (.str "zz")) none = .error .typeMismatch ∧
      _validate_input sampleTable none (some (.int 0)) = .error .typeMismatch) :=
  ⟨⟨by decide, by decide⟩,
    validate_input_kinds sampleTable (.int 1) (.str "a") "zz" 0 (by decide) (by decide)⟩

/-- Counterexample for C2: with BOTH slots provided but the integer index out
of range, the call fails with the index-out-of-range error, not the
ambiguous-selector error the claim requires for every both-provided call. -/
theorem validate_both_not_ambiguous :
    _validate_input sampleTable (some (.int 5)) (some (.str "a")) =
      .error .indexOutOfRange ∧
    _validate_input sampleTable (some (.int 5)) (some (.str "a")) ≠
      .error .ambiguousSelector := by
  decide

/-- C1 (amended): for every loaded table with at least one row,
`varying_data_index_list` is a ONE-ELEMENT list whose sole element is the
complement of the constant-column set within the full index set: that set is
disjoint from the constant set and their union is the full index set.  (On a
zero-row table the constant classifier raises, so both queries fail.) -/
theorem varying_complement (t : Table) (hrows : ∀ c ∈ t.cols, c.2 ≠ []) :
    ∃ V C, varying_data_index_list t = .ok [V] ∧
      const_data_index_list t = .ok C ∧
      Disjoint V C.toFinset ∧ V ∪ C.toFinset = (index_list t).toFinset := by
  obtain ⟨C, hC⟩ := constIdxAux_ok t.cols 0 hrows
  have hCb : ∀ j ∈ C, j < t.cols.length := by
    have h := constIdxAux_lt t.cols 0 C hC
    simpa using h
  have hsub : C.toFinset ⊆ (index_list t).toFinset := by
    intro j hj
    rw [List.mem_toFinset] at hj ⊢
    unfold index_list header_list
    rw [List.mem_range, List.length_map]
    exact hCb j hj
  refine ⟨symmDiff C.toFinset (index_list t).toFinset, C, ?_, hC, ?_, ?_⟩
  · unfold varying_data_index_list const_data_index_list
    rw [hC]
    rfl
  · rw [symmDiff_of_le hsub]
    exact disjoint_sdiff_self_left
  · rw [symmDiff_of_le hsub]
    exact Finset.sdiff_union_of_subset hsub

/-- Witness for C1 on a table with one constant and one varying column. -/
theorem varying_complement_example :
    (∀ c ∈ mixedTable.cols, c.2 ≠ []) ∧
    (∃ V C, varying_data_index_list mixedTable = .ok [V] ∧
      const_data_index_list mixedTable = .ok C ∧
      Disjoint V C.toFinset ∧ V ∪ C.toFinset = (index_list mixedTable).toFinset) :=
  ⟨by decide, varying_complement mixedTable (by decide)⟩

/-- Counterexample for C1: a loadable header-only table (one column, zero
rows) makes the constant classifier raise an `IndexError` (`.iloc[0]` on an
empty column), so `varying_data_index_list` fails instead of returning the
complement the claim promises for every loaded table. -/
theorem varying_empty_rows_fails :
    varying_data_index_list ⟨[("a", [])], "x"⟩ = .error .indexError := by
  decide

/-- C10 (amended): for every loaded table with at least one row, every index
of the constant-zero list also appears in the constant list.  (On a zero-row
table the constant classifier raises while the zero classifier still reports
every column.) -/
theorem const_zero_subset_const (t : Table) (hrows : ∀ c ∈ t.cols, c.2 ≠ []) :
    ∃ C, const_data_index_list t = .ok C ∧
      ∀ i ∈ const_zero_data_index_list t, i ∈ C := by
  obtain ⟨C, hC⟩ := constIdxAux_ok t.cols 0 hrows
  exact ⟨C, hC, constZero_mem_aux t.cols 0 C hC⟩

/-- Witness for C10 on a table with a constant-one and a constant-zero
column. -/
theorem const_zero_subset_const_example :
    (∀ c ∈ (⟨[("a", [1, 1]), ("z", [0, 0])], "x"⟩ : Table).cols, c.2 ≠ []) ∧
    (∃ C, const_data_index_list ⟨[("a", [1, 1]), ("z", [0, 0])], "x"⟩ = .ok C ∧
      ∀ i ∈ const_zero_data_index_list ⟨[("a", [1, 1]), ("z", [0, 0])], "x"⟩, i ∈ C) :=
  ⟨by decide, const_zero_subset_const ⟨[("a", [1, 1]), ("z", [0, 0])], "x"⟩ (by decide)⟩

/-- Counterexample for C10: on a loadable header-only table the
constant-zero list contains index `0` (a vacuous all-zero check) while the
constant list is not a list at all — the classifier raises an `IndexError` —
so the subset relation the claim asserts for every loaded table fails. -/
theorem const_zero_not_subset_empty_rows :
    const_zero_data_index_list ⟨[("z", [])], "x"⟩ = [0] ∧
    const_data_index_list ⟨[("z", [])], "x"⟩ = .error .indexError := by
  decide

/-- C7 (amended): `headers_mapping` removes EVERY occurrence of the
configured prefix from each header and, provided no stripped header contains
two or more `::` separators, splits once on `::` into `(group, leaf)` —
grouping under the `null` key when no separator is present, with leaf order
following column order and group insertion order following first occurrence;
a header with two or more separators raises an unpack error instead. -/
theorem headers_mapping_split_once (t : Table)
    (h : ∀ hd ∈ header_list t,
      (pySplit "::".data (stripPfx t.pfx hd).data).length ≤ 2) :
    headers_mapping t = .ok (headerGroupsSpec t) :=
  hdrMapAux_eq_spec (header_list t) t.pfx 0 [] h

/-- Witness for C7: the header `"Truma_n_AmcuDebugData::operationTime"` with
the default prefix maps into group `"AmcuDebugData"` with leaf
`"operationTime"`. -/
theorem headers_mapping_split_once_example :
    (∀ hd ∈ header_list ⟨[("Truma_n_AmcuDebugData::operationTime", [1])], "Truma_n_"⟩,
      (pySplit "::".data
        (stripPfx (Table.pfx ⟨[("Truma_n_AmcuDebugData::operationTime", [1])], "Truma_n_"⟩)
          hd).data).length ≤ 2) ∧
    headers_mapping ⟨[("Truma_n_AmcuDebugData::operationTime", [1])], "Truma_n_"⟩ =
      .ok [(some "AmcuDebugData", [("operationTime", 0)])] :=
  ⟨by decide,
    (headers_mapping_split_once ⟨[("Truma_n_AmcuDebugData::operationTime", [1])], "Truma_n_"⟩
      (by decide)).trans (by decide)⟩

/-- Counterexample for C7: a header with two `::` separators does not split
once — `headers_mapping` raises a `ValueError` (tuple-unpack of a 3-element
split), so not every header is mapped as the claim states. -/
theorem headers_mapping_double_sep_fails :
    headers_mapping ⟨[("A::B::C", [0])], "x"⟩ = .error .unpackError := by
  decide

/-- C3 (amended): whenever the epoch conversion of a numeric raw input
raises, the fallback does NOT succeed: the 3-decimal formatted string of a
number contains no whitespace, so the whitespace split has no second token
and `_parse_time` raises an `IndexError` instead of returning an `H:M:S`
triple. -/
theorem parse_time_fallback_errors (q : ℚ) (h : ¬ epochOK (msOf q)) :
    _parse_time q = .error .indexError := by
  unfold _parse_time
  rw [if_neg h]
  unfold parseTimeFallback
  have hlen := pyFormat3_split_len q
  have hnone : (pySplitWs (pyFormat3 q)).get? 1 = none :=
    List.get?_eq_none.2 (by omega)
  rw [hnone]

/-- Witness for C3 at the out-of-range numeric input `4 * 10^11` (a
timestamp far beyond year 9999). -/
theorem parse_time_fallback_errors_example :
    ¬ epochOK (msOf (400000000000 : ℚ)) ∧
    _parse_time (400000000000 : ℚ) = .error .indexError := by
  have hms : msOf (400000000000 : ℚ) = 400000000000000 := by
    unfold msOf rheInt
    norm_num
  have hok : ¬ epochOK (msOf (400000000000 : ℚ)) := by
    rw [hms]
    decide
  exact ⟨hok, parse_time_fallback_errors _ hok⟩

/-- Counterexample for C3: for the numeric input `10^12` the epoch
conversion raises (`ValueError`, year out of range), and the call then
propagates an `IndexError` from the fallback instead of returning the
`(hours, minutes, seconds)` triple the claim promises. -/
theorem parse_time_fallback_no_triple :
    ¬ epochOK (msOf (1000000000000 : ℚ)) ∧
    _parse_time (1000000000000 : ℚ) = .error .indexError := by
  have hms : msOf (1000000000000 : ℚ) = 1000000000000000 := by
    unfold msOf rheInt
    norm_num
  have hok : ¬ epochOK (msOf (1000000000000 : ℚ)) := by
    rw [hms]
    decide
  refine ⟨hok, ?_⟩
  unfold _parse_time
  rw [if_neg hok]
  unfold parseTimeFallback pyFormat3
  rw [hms]
  decide

/-- C4 (amended): for every non-constant numeric series resolved by
`get_data_extrema` whose raw range exceeds `0.01`, the returned bounds are
the raw extrema widened by `5%` of the raw range and rounded to three
decimals, the returned minimum is strictly below the raw minimum, and the
returned maximum is strictly above the raw maximum.  (For ranges of at most
`0.01` the widening of at most `0.0005` can be cancelled — or even reversed
— by the 3-decimal rounding.) -/
theorem extrema_strict_bounds (t : Table) (idx hdr : Option PyVal)
    (d : List ℚ) (mn mx : ℚ)
    (hres : _get_raw_data t idx hdr = .ok d)
    (hmin : listMin d = some mn) (hmax : listMax d = some mx)
    (hlt : mn < mx) (hrange : 1 / 100 < mx - mn) :
    get_data_extrema t idx hdr =
      .ok (pyRound3 (mn - 5 / 100 * (mx - mn)), pyRound3 (mx + 5 / 100 * (mx - mn))) ∧
    pyRound3 (mn - 5 / 100 * (mx - mn)) < mn ∧
    mx < pyRound3 (mx + 5 / 100 * (mx - mn)) := by
  have habs : |(5 / 100 : ℚ) * (mx - mn)| = 5 / 100 * (mx - mn) :=
    abs_of_pos (mul_pos (by norm_num) (sub_pos.2 hlt))
  have hbuf : 1 / 2000 < 5 / 100 * (mx - mn) := by linarith
  refine ⟨?_, ?_, ?_⟩
  · unfold get_data_extrema
    rw [hres, ok_bind']
    unfold extremaCore
    simp only [hmin, hmax]
    rw [if_neg (ne_of_lt hlt), habs]
  · have h := pyRound3_le (mn - 5 / 100 * (mx - mn))
    linarith
  · have h := le_pyRound3 (mx + 5 / 100 * (mx - mn))
    linarith

/-- Witness for C4 on the series `[0, 10]`: range `10`, buffer `0.5`. -/
theorem extrema_strict_bounds_example :
    (_get_raw_data ⟨[("a", [0, 10])], "x"⟩ none (some (.str "a")) = .ok [0, 10] ∧
      listMin [0, 10] = some 0 ∧ listMax [0, 10] = some 10 ∧
      (0 : ℚ) < 10 ∧ (1 / 100 : ℚ) < 10 - 0) ∧
    (get_data_extrema ⟨[("a", [0, 10])], "x"⟩ none (some (.str "a")) =
        .ok (pyRound3 (0 - 5 / 100 * (10 - 0)), pyRound3 (10 + 5 / 100 * (10 - 0))) ∧
      pyRound3 (0 - 5 / 100 * (10 - 0)) < 0 ∧
      (10 : ℚ) < pyRound3 (10 + 5 / 100 * (10 - 0))) := by
  have h1 : _get_raw_data ⟨[("a", [0, 10])], "x"⟩ none (some (.str "a")) = .ok [0, 10] := by
    simp [_get_raw_data, _validate_input, _validate_index, _validate_header,
      _get_data_by_header, header_list, isStrVal]
  have h2 : listMin [0, 10] = some (0 : ℚ) := by
    norm_num [listMin, List.foldl, min_def]
  have h3 : listMax [0, 10] = some (10 : ℚ) := by
    norm_num [listMax, List.foldl, max_def]
  have h4 : (0 : ℚ) < 10 := by norm_num
  have h5 : (1 / 100 : ℚ) < 10 - 0 := by norm_num
  exact ⟨⟨h1, h2, h3, h4, h5⟩,
    extrema_strict_bounds ⟨[("a", [0, 10])], "x"⟩ none (some (.str "a")) [0, 10] 0 10
      h1 h2 h3 h4 h5⟩

/-- Counterexample for C4: on the series `[0.0006, 0.0016]` the buffer is
`0.00005`, and rounding `min - buffer = 0.00055` to three decimals yields
`0.001`, which is strictly GREATER than the raw minimum `0.0006` — the
returned minimum is not strictly less than the raw minimum. -/
theorem extrema_round_collapse :
    get_data_extrema ⟨[("a", [3 / 5000, 8 / 5000])], "x"⟩ none (some (.str "a")) =
      .ok (1 / 1000, 1 / 500) ∧
    ¬ ((1 : ℚ) / 1000 < 3 / 5000) := by
  constructor
  · have hres : _get_raw_data ⟨[("a", [3 / 5000, 8 / 5000])], "x"⟩ none
        (some (.str "a")) = .ok [3 / 5000, 8 / 5000] := by
      simp [_get_raw_data, _validate_input, _validate_index, _validate_header,
        _get_data_by_header, header_list, isStrVal]
    unfold get_data_extrema
    rw [hres, ok_bind']
    unfold extremaCore
    have hmin : listMin [3 / 5000, 8 / 5000] = some (3 / 5000 : ℚ) := by
      norm_num [listMin, List.foldl, min_def]
    have hmax : listMax [3 / 5000, 8 / 5000] = some (8 / 5000 : ℚ) := by
      norm_num [listMax, List.foldl, max_def]
    simp only [hmin, hmax]
    rw [if_neg (by norm_num : ¬ (3 / 5000 : ℚ) = 8 / 5000)]
    have habs : |(5 / 100 : ℚ) * (8 / 5000 - 3 / 5000)| = 1 / 20000 := by
      rw [abs_of_pos] <;> norm_num
    rw [habs]
    unfold pyRound3 rheInt
    norm_num
  · norm_num

/-- C6 (amended): for every loaded table containing a `"time index"` column
with at least one row, all of whose values convert within the epoch range,
`time_data_list` returns `0.0` followed by, for each subsequent row, the
elapsed seconds `(h - h0) * 3600 + (m - m0) * 60 + (s - s0)` rounded to
three decimals relative to the first row's parsed time, and its length
equals the row count.  (A zero-row column or an out-of-range value makes the
call raise instead.) -/
theorem time_data_list_spec (t : Table) (d0 : ℚ) (rest : List ℚ)
    (hget : get_data t none (some (.str "time index")) = .ok (d0 :: rest))
    (hok : ∀ r ∈ d0 :: rest, epochOK (msOf r)) :
    time_data_list t =
      .ok ((0 : ℚ) ::
        rest.map (fun r => hmsDelta (epochHMS (msOf r)) (epochHMS (msOf d0)))) ∧
    ((0 : ℚ) ::
      rest.map (fun r => hmsDelta (epochHMS (msOf r)) (epochHMS (msOf d0)))).length =
      (d0 :: rest).length := by
  constructor
  · unfold time_data_list
    simp only [hget, ok_bind]
    simp only [parse_time_ok d0 (hok d0 (List.mem_cons_self _ _)), ok_bind]
    simp only [mapM_calc_ok (epochHMS (msOf d0)) rest
      (fun r hr => hok r (List.mem_cons_of_mem _ hr)), ok_bind]
  · simp

/-- Witness for C6 on a two-row `"time index"` column `[0, 1]` (epoch
midnight and one second later): the series is `[0.0, 1.0]`. -/
theorem time_data_list_spec_example :
    (get_data ⟨[("time index", [0, 1])], "x"⟩ none (some (.str "time index")) =
        .ok [0, 1] ∧
      ∀ r ∈ ([0, 1] : List ℚ), epochOK (msOf r)) ∧
    time_data_list ⟨[("time index", [0, 1])], "x"⟩ = .ok [0, 1] := by
  have hms0 : msOf (0 : ℚ) = 0 := by
    unfold msOf rheInt
    norm_num
  have hms1 : msOf (1 : ℚ) = 1000 := by
    unfold msOf rheInt
    norm_num
  have hget : get_data ⟨[("time index", [0, 1])], "x"⟩ none (some (.str "time index")) =
      .ok [0, 1] := by
    simp [get_data, _get_raw_data, _validate_input, _validate_index,
      _validate_header, _get_data_by_header, header_list, isStrVal, Except.map]
  have hok : ∀ r ∈ ([0, 1] : List ℚ), epochOK (msOf r) := by
    intro r hr
    rcases List.mem_cons.1 hr with rfl | hr'
    · rw [hms0]; decide
    · rcases List.mem_cons.1 hr' with rfl | hr''
      · rw [hms1]; decide
      · simp at hr''
  refine ⟨⟨hget, hok⟩, ?_⟩
  have h := (time_data_list_spec ⟨[("time index", [0, 1])], "x"⟩ 0 [1] hget hok).1
  rw [h]
  have hd : hmsDelta (epochHMS (msOf (1 : ℚ))) (epochHMS (msOf (0 : ℚ))) = 1 := by
    rw [hms0, hms1]
    unfold hmsDelta epochHMS pyRound3 rheInt
    norm_num
  simp [hd]

/-- Counterexample for C6: a loadable table whose `"time index"` column has
zero rows — `data[0]` raises an `IndexError`, so `time_data_list` fails
instead of returning a sequence starting at `0.0` with length equal to the
(zero) row count. -/
theorem time_data_list_empty_fails :
    time_data_list ⟨[("time index", [])], "x"⟩ = .error .indexError := by
  decide

end CSVision
